import Mathlib

set_option linter.unusedVariables false

/-!
Verification of the Pulsar installer core: a shallow embedding of the
installer's error model, platform detector, configuration, download engine
with checksum verification, and the step pipeline, together with theorems
about the properties the specification states for them.

Conventions of the embedding:
* Rust `u64` values are modelled as `Nat` (none of the embedded operations
  overflow; parsing checks the `u64` bound explicitly).
* Rust `f32` progress percentages are modelled as exact rationals `ℚ`;
  the arithmetic performed on them (`downloaded / total * 100`, clamping)
  is order-preserving in both models.
* Filesystem state is a map from path strings to file contents
  (`String → Option (List Nat)`, bytes as `Nat`).
* Fallible Rust functions returning `Result<T, InstallerError>` become
  `Except InstallerErrorM T`.
-/

namespace Pulsar

/-- Metadata of a directory as consulted by `check_write_permission`
(`platform/detector.rs`): whether it exists and its readonly flag. -/
structure DirMeta where
  dirExists : Bool
  dirReadonly : Bool
deriving DecidableEq, Repr

/-- Model of a filesystem path together with the filesystem attributes the
detector queries on it: its display string, whether it is absolute, whether
it exists, its readonly permission flag, and its parent directory (if any). -/
structure PathM where
  name : String
  absolute : Bool
  pathExists : Bool
  readonly : Bool
  parent : Option DirMeta
deriving DecidableEq, Repr

/-- The installer's error enumeration, from `error.rs` (`InstallerError`).
`Io` errors carry only a message here since the embedding never inspects
the wrapped OS error. -/
inductive InstallerErrorM where
  | io (msg : String)
  | download (msg : String)
  | checksumMismatch (file expected actual : String)
  | insufficientSpace (needed available : Nat)
  | requirementsNotMet (reason : String)
  | invalidPath (path : PathM)
  | componentFailed (component reason : String)
  | config (reason : String)
  | unsupportedPlatform (reason : String)
  | json (msg : String)
  | other (msg : String)
deriving DecidableEq, Repr

/-- System requirements, from `traits.rs` (`SystemRequirements`). -/
structure SystemRequirementsM where
  min_disk_space : Nat
  min_ram_mb : Option Nat
  os_versions : List String
  architectures : List String
deriving DecidableEq, Repr

/-- Write-permission probe from `platform/detector.rs`
(`PlatformDetector::check_write_permission`): a non-existent path is
writable iff its parent exists and is not readonly; an existing path is
writable iff it is not readonly. (`metadata()` is modelled as always
succeeding on an existing path, so the `Result` wrapper is dropped.) -/
def check_write_permission (p : PathM) : Bool :=
  if !p.pathExists then
    match p.parent with
    | some d => if d.dirExists then !d.dirReadonly else false
    | none => false
  else !p.readonly

/-- Install-path validation from `platform/detector.rs`
(`PlatformDetector::validate_path_impl`): reject non-absolute paths with
`InvalidPath`; for existing paths without write permission return the
generic `Other` error; accept everything else. -/
def validate_path_impl (p : PathM) : Except InstallerErrorM Unit :=
  if !p.absolute then
    .error (.invalidPath p)
  else if p.pathExists && !(check_write_permission p) then
    .error (.other ("No write permission for path: " ++ p.name))
  else
    .ok ()

/-- Requirement gate from `platform/detector.rs`
(`PlatformDetector::check_requirements_impl`), with the available disk
space at the install path passed in as `available` (the result of
`get_available_space_impl`): the space check runs first, then the
architecture membership check. -/
def check_requirements_impl (architecture : String) (available : Nat)
    (req : SystemRequirementsM) : Except InstallerErrorM Unit :=
  if available < req.min_disk_space then
    .error (.insufficientSpace req.min_disk_space available)
  else if !(req.architectures.contains architecture) then
    .error (.requirementsNotMet ("Architecture " ++ architecture ++
      " is not supported. Supported: " ++ String.intercalate ", " req.architectures))
  else
    .ok ()

/-- One catalog entry as seen through the `ComponentInstaller` trait
(`traits.rs`): its id and its size in bytes. -/
structure ComponentM where
  id : String
  size_bytes : Nat
deriving DecidableEq, Repr

/-- Installer configuration, from `config.rs` (`InstallerConfig`). The
`total_size` field is the cached value maintained by
`calculate_total_size`. -/
structure InstallerConfigM where
  install_path : PathM
  selected_components : List String
  create_desktop_shortcut : Bool
  create_start_menu_shortcut : Bool
  add_to_path : Bool
  requirements : SystemRequirementsM
  total_size : Nat
deriving DecidableEq, Repr

/-- Recompute and cache the aggregate size of the selected components,
from `config.rs` (`InstallerConfig::calculate_total_size`). -/
def calculate_total_size (cfg : InstallerConfigM) (components : List ComponentM) :
    InstallerConfigM :=
  { cfg with total_size :=
      (((components.filter (fun c => cfg.selected_components.contains c.id)).map
        (fun c => c.size_bytes)).sum) }

/-- Accessor for the cached total, from `config.rs`
(`ConfigManager::total_size` for `InstallerConfig`). -/
def total_size (cfg : InstallerConfigM) : Nat :=
  cfg.total_size

/-- Selection mutator, from `config.rs`
(`ConfigManager::set_selected_components` for `InstallerConfig`). -/
def set_selected_components (cfg : InstallerConfigM) (components : List String) :
    InstallerConfigM :=
  { cfg with selected_components := components }

/-- Configuration validation, from `config.rs` (`InstallerConfig::validate`):
an empty selection is a `Config` error, a non-absolute install path is an
`InvalidPath` error. -/
def validate (cfg : InstallerConfigM) : Except InstallerErrorM Unit :=
  if cfg.selected_components.isEmpty then
    .error (.config "No components selected for installation")
  else if !cfg.install_path.absolute then
    .error (.invalidPath cfg.install_path)
  else
    .ok ()

/-- Total size as the specification words it: the sum of `sizeBytes` over
exactly the ids present in both the selection and the catalog (each catalog
entry contributes when its id is selected). -/
def specTotalSize (selection : List String) (catalog : List ComponentM) : Nat :=
  ((catalog.filter (fun c => selection.contains c.id)).map (fun c => c.size_bytes)).sum

/-- Filesystem state: a map from path strings to file contents (bytes). -/
def FsM : Type := String → Option (List Nat)

/-- Write (create or truncate-and-write) a file at `path`. -/
def fsUpdate (fs : FsM) (path : String) (contents : List Nat) : FsM :=
  fun q => if q = path then some contents else fs q

/-- Progress value, from `traits.rs` (`Progress`). The `f32` percent is
modelled as an exact rational. -/
structure Progress where
  current : ℚ
  total_bytes : Option Nat
  processed_bytes : Nat
  message : Option String
deriving DecidableEq, Repr

/-- Constructor from `traits.rs` (`Progress::new`): clamps the percent into
`[0, 100]` (Rust `f32::clamp(0.0, 100.0)`). -/
def Progress.new (current : ℚ) : Progress :=
  { current := min (max current 0) 100
    total_bytes := none
    processed_bytes := 0
    message := none }

/-- Builder from `traits.rs` (`Progress::with_total_bytes`). -/
def Progress.with_total_bytes (p : Progress) (total : Nat) : Progress :=
  { p with total_bytes := some total }

/-- Builder from `traits.rs` (`Progress::with_processed_bytes`). -/
def Progress.with_processed_bytes (p : Progress) (processed : Nat) : Progress :=
  { p with processed_bytes := processed }

/-- Rust `String::to_lowercase` as used on ASCII hex digest strings:
character-wise lowercasing. -/
def to_lowercase (s : String) : String :=
  String.mk (s.toList.map Char.toLower)

/-- Helper for `parse_u64`: fold a run of decimal digits, failing on any
non-digit character. -/
def parseDigitsAux : List Char → Nat → Option Nat
  | [], acc => some acc
  | c :: rest, acc =>
    if c.isDigit then parseDigitsAux rest (acc * 10 + (c.toNat - ('0').toNat))
    else none

/-- Rust `str::parse::<u64>()` (as `.ok()`): an optional leading `+`, then
one or more decimal digits, rejecting values outside the `u64` range. -/
def parse_u64 (s : String) : Option Nat :=
  let cs :=
    match s.toList with
    | '+' :: rest => rest
    | cs => cs
  if cs.isEmpty then none
  else
    match parseDigitsAux cs 0 with
    | none => none
    | some n => if n < 2 ^ 64 then some n else none

/-- Lowercase hex digit for a nibble, as produced by the `hex` crate. -/
def hexDigitChar (n : Nat) : Char :=
  ("0123456789abcdef").toList.getD n '0'

/-- Lowercase hex encoding of a byte sequence (`hex::encode`). -/
def hexEncode (bytes : List Nat) : String :=
  String.mk ((bytes.map (fun b => [hexDigitChar (b / 16 % 16), hexDigitChar (b % 16)])).flatten)

/-- Model of the HTTP response consumed by `download_impl`
(`download/manager.rs`): the status check result, the raw `content-length`
header (absent or non-string modelled as `none`), the status line for error
display, and the successive non-empty reads of the body stream (the stream
end is the end of the list; an explicit empty read also terminates). -/
structure HttpRespM where
  success : Bool
  statusText : String
  contentLength : Option String
  chunks : List (List Nat)
deriving DecidableEq, Repr

/-- Streaming write loop of `HttpDownloadManager::download_impl`
(`download/manager.rs`): for each non-empty read, append the chunk to the
file, advance the byte counter, and emit a `Progress` whose percent is
`downloaded / total * 100` when the total is known and `0` otherwise.
Returns the emitted progress values and the bytes written. -/
def downloadLoop (total : Nat) : List (List Nat) → Nat → List Progress × List Nat
  | [], _ => ([], [])
  | chunk :: rest, downloaded =>
    if chunk.length = 0 then ([], [])
    else
      let downloaded' := downloaded + chunk.length
      let percent : ℚ := if 0 < total then ((downloaded' : ℚ) / (total : ℚ)) * 100 else 0
      let p := ((Progress.new percent).with_total_bytes total).with_processed_bytes downloaded'
      let res := downloadLoop total rest downloaded'
      (p :: res.1, chunk ++ res.2)

/-- Download engine, from `download/manager.rs`
(`HttpDownloadManager::download_impl`). The network is modelled by the
response the request for `url` produces (`resp`; a transport failure is the
`Except.error` case). On a non-success status a `Download` error is
returned; otherwise the total size is the parsed `content-length` header
defaulting to `0`, the destination file is created, and the body is
streamed to it chunk by chunk with progress emissions. Returns the result,
the filesystem after the call, and the emitted progress values. -/
def download_impl (resp : Except String HttpRespM) (fs : FsM)
    (url destination : String) : Except InstallerErrorM Unit × FsM × List Progress :=
  match resp with
  | .error e => (.error (.download e), fs, [])
  | .ok r =>
    if !r.success then
      (.error (.download ("HTTP error: " ++ r.statusText)), fs, [])
    else
      let total := (r.contentLength.bind parse_u64).getD 0
      let res := downloadLoop total r.chunks 0
      (.ok (), fsUpdate fs destination res.2, res.1)

/-- Digest computation from `download/verifier.rs`
(`FileVerifier::calculate_sha256`): read the file and hex-encode its
digest. The SHA-256 compression itself is the external `sha2` crate,
modelled by the parameter `g` (a function from bytes to digest bytes). -/
def calculate_sha256 (g : List Nat → List Nat) (fs : FsM) (path : String) :
    Except InstallerErrorM String :=
  match fs path with
  | none => .error (.io ("No such file: " ++ path))
  | some data => .ok (hexEncode (g data))

/-- Checksum check from `download/verifier.rs` (`FileVerifier::verify_sha256`):
compare the computed digest with the expected one case-insensitively and
report a `ChecksumMismatch` carrying the file, the expected and the actual
digest on disagreement. -/
def verify_sha256 (g : List Nat → List Nat) (fs : FsM) (path expected : String) :
    Except InstallerErrorM Unit :=
  match calculate_sha256 g fs path with
  | .error e => .error e
  | .ok actual =>
    if to_lowercase actual ≠ to_lowercase expected then
      .error (.checksumMismatch path expected actual)
    else
      .ok ()

/-- Verified download, from `download/manager.rs`
(`HttpDownloadManager::download_with_verification`): run `download_impl`,
then on success run `verify_sha256` on the written file; errors of either
phase propagate and the filesystem is whatever the download left behind. -/
def download_with_verification (g : List Nat → List Nat) (resp : Except String HttpRespM)
    (fs : FsM) (url destination expected_checksum : String) :
    Except InstallerErrorM Unit × FsM :=
  match download_impl resp fs url destination with
  | (.error e, fs2, _) => (.error e, fs2)
  | (.ok _, fs2, _) =>
    match verify_sha256 g fs2 destination expected_checksum with
    | .error e => (.error e, fs2)
    | .ok _ => (.ok (), fs2)

/-- Running totals of a list of chunk sizes starting from `acc`: the byte
counter values after each chunk. -/
def runningTotals (acc : Nat) : List Nat → List Nat
  | [] => []
  | n :: rest => (acc + n) :: runningTotals (acc + n) rest

/-- Percent value carried by the progress emitted after `downloaded` of
`total` bytes: the loop's percent expression followed by the constructor's
clamp. -/
def pct (total downloaded : Nat) : ℚ :=
  min (max (if 0 < total then ((downloaded : ℚ) / (total : ℚ)) * 100 else 0) 0) 100

/-- Decidable equality for step-operation outcomes. -/
instance exceptDecEq {ε α : Type} [DecidableEq ε] [DecidableEq α] :
    DecidableEq (Except ε α) := fun a b =>
  match a, b with
  | .error e, .error f =>
    if h : e = f then isTrue (by rw [h]) else isFalse (by intro hc; cases hc; exact h rfl)
  | .error _, .ok _ => isFalse (by intro hc; cases hc)
  | .ok _, .error _ => isFalse (by intro hc; cases hc)
  | .ok x, .ok y =>
    if h : x = y then isTrue (by rw [h]) else isFalse (by intro hc; cases hc; exact h rfl)

/-- Modelled from the spec: the repository declares the step abstraction
(`InstallStep` in `traits.rs`, with `canExecute`, `execute` and `rollback`)
and the `StepSequence` container (`steps/mod.rs`), but contains no pipeline
executor; the execution-and-rollback algorithm is taken from the spec's
pipeline section. A step is modelled by the outcomes its three operations
produce when invoked. -/
structure StepM (ε : Type) where
  canExecute : Bool
  executeResult : Except ε Unit
  rollbackResult : Except ε Unit
deriving DecidableEq, Repr

/-- Modelled from the spec: the pipeline's terminal state — `completed`, or
`failed` carrying the failing step's original error together with the
collected rollback failures. -/
inductive PipeResult (ε : Type) where
  | completed
  | failed (err : ε) (rollbackErrs : List ε)
deriving DecidableEq, Repr

/-- The error of a step-operation outcome, if any. -/
def errOf {ε : Type} : Except ε Unit → Option ε
  | .error e => some e
  | .ok _ => none

/-- Modelled from the spec: the rollback failures collected while invoking
`rollback` on the steps at the given indices, in that order; failures are
collected, never propagated. -/
def rollbackFailures {ε : Type} (all : List (StepM ε)) (idxs : List Nat) : List ε :=
  idxs.filterMap (fun i => (all.get? i).bind (fun s => errOf s.rollbackResult))

/-- Modelled from the spec: the pipeline's execution loop over the steps
not yet visited, with `cursor` the index of the next step. A step whose
gate is false is skipped; a successful step advances the cursor; on the
first execution failure the pipeline stops, invokes `rollback` on every
step with index below the cursor in strictly descending order, and ends
`failed` with the original error and the collected rollback failures.
Returns the terminal state and the rollback invocations in order. -/
def runAux {ε : Type} (all : List (StepM ε)) :
    List (StepM ε) → Nat → PipeResult ε × List Nat
  | [], _ => (.completed, [])
  | s :: rest, cursor =>
    if s.canExecute then
      match s.executeResult with
      | .ok _ => runAux all rest (cursor + 1)
      | .error e =>
        let idxs := (List.range cursor).reverse
        (.failed e (rollbackFailures all idxs), idxs)
    else
      runAux all rest (cursor + 1)

/-- Modelled from the spec: run the pipeline over its full step list from
cursor `0`. -/
def runPipeline {ε : Type} (steps : List (StepM ε)) : PipeResult ε × List Nat :=
  runAux steps steps 0

/-- A relative path with one selected component, exhibiting `validate`'s
behaviour on a non-absolute install path. -/
def cfgRelPath : InstallerConfigM :=
  { install_path := ⟨"pulsar", false, false, false, none⟩
    selected_components := ["engine"]
    create_desktop_shortcut := true
    create_start_menu_shortcut := true
    add_to_path := true
    requirements := ⟨2, none, [], ["x86_64"]⟩
    total_size := 0 }

/-- A configuration with an empty selection and zero cached total,
exhibiting the staleness of the cached total. -/
def cfgEmptySel : InstallerConfigM :=
  { install_path := ⟨"/opt/pulsar", true, false, false, none⟩
    selected_components := []
    create_desktop_shortcut := true
    create_start_menu_shortcut := true
    add_to_path := true
    requirements := ⟨2, none, [], ["x86_64"]⟩
    total_size := 0 }

/-- C3: `check_requirements_impl` succeeds exactly when the available space
meets `min_disk_space` and the architecture is supported; a space shortfall
is reported as `InsufficientSpace{needed, available}` regardless of the
architecture check, and an unsupported architecture with sufficient space
is reported as `RequirementsNotMet`. -/
theorem check_requirements_characterization (architecture : String) (available : Nat)
    (req : SystemRequirementsM) :
    (check_requirements_impl architecture available req = .ok () ↔
      req.min_disk_space ≤ available ∧ architecture ∈ req.architectures) ∧
    (available < req.min_disk_space →
      check_requirements_impl architecture available req =
        .error (.insufficientSpace req.min_disk_space available)) ∧
    (req.min_disk_space ≤ available → architecture ∉ req.architectures →
      check_requirements_impl architecture available req =
        .error (.requirementsNotMet ("Architecture " ++ architecture ++
          " is not supported. Supported: " ++
          String.intercalate ", " req.architectures))) := by
  refine ⟨⟨fun h => ?_, fun h => ?_⟩, fun h => ?_, fun h1 h2 => ?_⟩
  · by_cases h1 : available < req.min_disk_space
    · simp [check_requirements_impl, h1] at h
    · by_cases h2 : architecture ∈ req.architectures
      · exact ⟨Nat.le_of_not_lt h1, h2⟩
      · simp [check_requirements_impl, h1, h2] at h
  · simp [check_requirements_impl, Nat.not_lt.mpr h.1, h.2]
  · simp [check_requirements_impl, h]
  · simp [check_requirements_impl, Nat.not_lt.mpr h1, h2]

/-- Witness for C3: with 1 byte available against a 2-byte requirement, the
space failure is reported as `InsufficientSpace` even though the
architecture list is empty. -/
theorem check_requirements_characterization_witness :
    (1 : Nat) < (2 : Nat) ∧
    check_requirements_impl "x86_64" 1 ⟨2, none, [], []⟩ =
      .error (.insufficientSpace 2 1) :=
  ⟨by decide, (check_requirements_characterization "x86_64" 1 ⟨2, none, [], []⟩).2.1 (by decide)⟩

/-- C4 counterexample: an absolute, existing, readonly path is rejected by
`validate_path_impl` with the generic `Other` error, not with the
`InvalidPath` error kind the claim names. -/
theorem validate_path_unwritable_not_invalidPath :
    validate_path_impl ⟨"/opt/pulsar", true, true, true, none⟩ =
      .error (.other "No write permission for path: /opt/pulsar") ∧
    ∀ q : PathM, validate_path_impl ⟨"/opt/pulsar", true, true, true, none⟩ ≠
      .error (.invalidPath q) := by
  refine ⟨by decide, fun q h => ?_⟩
  rw [show validate_path_impl ⟨"/opt/pulsar", true, true, true, none⟩ =
    .error (.other "No write permission for path: /opt/pulsar") by decide] at h
  simp at h

/-- C4 (amended): `validate_path_impl` fails with `InvalidPath` on a
non-absolute path; on an absolute path that exists and has no write
permission it fails with the generic `Other` error; it succeeds on every
other absolute path, in particular on non-existent ones and writable
ones. -/
theorem validate_path_impl_cases (p : PathM) :
    (p.absolute = false → validate_path_impl p = .error (.invalidPath p)) ∧
    (p.absolute = true → p.pathExists = true → check_write_permission p = false →
      validate_path_impl p =
        .error (.other ("No write permission for path: " ++ p.name))) ∧
    (p.absolute = true → p.pathExists = false → validate_path_impl p = .ok ()) ∧
    (p.absolute = true → check_write_permission p = true →
      validate_path_impl p = .ok ()) := by
  refine ⟨fun h => ?_, fun h1 h2 h3 => ?_, fun h1 h2 => ?_, fun h1 h2 => ?_⟩
  · simp [validate_path_impl, h]
  · simp [validate_path_impl, h1, h2, h3]
  · simp [validate_path_impl, h1, h2]
  · simp [validate_path_impl, h1, h2]

/-- Witness for the amended C4: the readonly existing path from the
counterexample is rejected with the `Other` error kind. -/
theorem validate_path_impl_cases_witness :
    (⟨"/opt/pulsar", true, true, true, none⟩ : PathM).absolute = true ∧
    validate_path_impl ⟨"/opt/pulsar", true, true, true, none⟩ =
      .error (.other "No write permission for path: /opt/pulsar") :=
  ⟨rfl, (validate_path_impl_cases ⟨"/opt/pulsar", true, true, true, none⟩).2.1
    rfl rfl (by decide)⟩

/-- C10: an absolute path that does not exist is accepted by
`validate_path_impl` whatever its permission attributes are — the
writability probe is gated on existence and is never consulted. -/
theorem validate_path_nonexistent_absolute_ok (name : String) (ro : Bool)
    (par : Option DirMeta) :
    validate_path_impl ⟨name, true, false, ro, par⟩ = .ok () := by
  simp [validate_path_impl]

/-- C5 counterexample: after `calculate_total_size` over an empty selection
and a subsequent `set_selected_components`, the reported total is the stale
cached `0`, not the `5` bytes the selection-catalog intersection sums to. -/
theorem total_size_stale_after_mutation :
    total_size (set_selected_components
      (calculate_total_size cfgEmptySel [⟨"engine", 5⟩]) ["engine"]) = 0 ∧
    specTotalSize ["engine"] [⟨"engine", 5⟩] = 5 ∧
    total_size (set_selected_components
        (calculate_total_size cfgEmptySel [⟨"engine", 5⟩]) ["engine"]) ≠
      specTotalSize ["engine"] [⟨"engine", 5⟩] := by
  refine ⟨by decide, by decide, by decide⟩

/-- C5 (amended): at the moment `calculate_total_size` runs, the cached
total equals the sum of `size_bytes` over exactly the catalog entries whose
id is selected; `total_size` then serves that cached value unchanged, so
mutating the selection does not change the reported total until the next
recomputation. -/
theorem calculate_total_size_spec (cfg : InstallerConfigM)
    (components : List ComponentM) :
    total_size (calculate_total_size cfg components) =
      (components.map
        (fun c => if cfg.selected_components.contains c.id then c.size_bytes else 0)).sum ∧
    ∀ sel : List String, total_size (set_selected_components cfg sel) = total_size cfg := by
  constructor
  · show (((components.filter
        (fun c => cfg.selected_components.contains c.id)).map
          (fun c => c.size_bytes)).sum) = _
    induction components with
    | nil => rfl
    | cons c rest ih =>
      by_cases h : c.id ∈ cfg.selected_components
      · simp [List.filter_cons, h] at ih ⊢
        rw [ih]
      · simp [List.filter_cons, h] at ih ⊢
        exact ih
  · intro sel
    rfl

/-- C6 counterexample: a configuration with a non-empty selection and a
relative install path is rejected by `validate` with `InvalidPath`, not
with the `Config` error kind the claim names. -/
theorem validate_relative_path_not_config_error :
    validate cfgRelPath = .error (.invalidPath ⟨"pulsar", false, false, false, none⟩) ∧
    ∀ s : String, validate cfgRelPath ≠ .error (.config s) := by
  refine ⟨by decide, fun s h => ?_⟩
  rw [show validate cfgRelPath =
    .error (.invalidPath ⟨"pulsar", false, false, false, none⟩) by decide] at h
  simp at h

/-- C6 (amended): `validate` fails with the `Config` error kind when the
selection is empty; with a non-empty selection it fails with `InvalidPath`
when the install path is not absolute, and succeeds when it is. -/
theorem validate_cases (cfg : InstallerConfigM) :
    (cfg.selected_components = [] →
      validate cfg = .error (.config "No components selected for installation")) ∧
    (cfg.selected_components ≠ [] → cfg.install_path.absolute = false →
      validate cfg = .error (.invalidPath cfg.install_path)) ∧
    (cfg.selected_components ≠ [] → cfg.install_path.absolute = true →
      validate cfg = .ok ()) := by
  refine ⟨fun h => ?_, fun h1 h2 => ?_, fun h1 h2 => ?_⟩
  · simp [validate, h]
  · simp [validate, h1, h2]
  · simp [validate, h1, h2]

/-- Witness for the amended C6: the empty-selection configuration is
rejected with the `Config` error. -/
theorem validate_cases_witness :
    cfgEmptySel.selected_components = [] ∧
    validate cfgEmptySel = .error (.config "No components selected for installation") :=
  ⟨rfl, (validate_cases cfgEmptySel).1 rfl⟩

/-- The empty filesystem. -/
def emptyFs : FsM := fun _ => none

/-- The three progress builders compose into a plain record. -/
lemma progress_build_eq (percent : ℚ) (total processed : Nat) :
    ((Progress.new percent).with_total_bytes total).with_processed_bytes processed =
      { current := min (max percent 0) 100
        total_bytes := some total
        processed_bytes := processed
        message := none } := rfl

/-- The byte counter never decreases along the running totals. -/
lemma runningTotals_chain_le (acc : Nat) (l : List Nat) :
    List.Chain (· ≤ ·) acc (runningTotals acc l) := by
  induction l generalizing acc with
  | nil => exact List.Chain.nil
  | cons n rest ih => exact List.Chain.cons (Nat.le_add_right acc n) (ih (acc + n))

/-- With positive chunk sizes the byte counter strictly increases. -/
lemma runningTotals_chain_lt (acc : Nat) (l : List Nat) (hpos : ∀ n ∈ l, 0 < n) :
    List.Chain (· < ·) acc (runningTotals acc l) := by
  induction l generalizing acc with
  | nil => exact List.Chain.nil
  | cons n rest ih =>
    exact List.Chain.cons (Nat.lt_add_of_pos_right (hpos n (by simp)))
      (ih (acc + n) (fun m hm => hpos m (by simp [hm])))

/-- The last running total is the starting value plus the sum of the chunk
sizes. -/
lemma runningTotals_getLast_cons (acc n : Nat) (rest : List Nat) :
    (runningTotals acc (n :: rest)).getLast? = some (acc + n + rest.sum) := by
  induction rest generalizing acc n with
  | nil => simp [runningTotals]
  | cons m rs ih =>
    have h1 : runningTotals acc (n :: m :: rs) =
        (acc + n) :: (acc + n + m) :: runningTotals (acc + n + m) rs := rfl
    have h2 : runningTotals (acc + n) (m :: rs) =
        (acc + n + m) :: runningTotals (acc + n + m) rs := rfl
    rw [h1, List.getLast?_cons_cons, ← h2, ih]
    simp [Nat.add_assoc]

/-- The clamped percent is monotone in the byte counter. -/
lemma pct_mono {total : Nat} (ht : 0 < total) {d e : Nat} (h : d ≤ e) :
    pct total d ≤ pct total e := by
  have hde : (d : ℚ) ≤ (e : ℚ) := by exact_mod_cast h
  have h1 : ((d : ℚ) / total) * 100 ≤ ((e : ℚ) / total) * 100 := by gcongr
  simp only [pct, if_pos ht]
  exact min_le_min (max_le_max h1 le_rfl) le_rfl

/-- The percent at a full byte counter is exactly 100. -/
lemma pct_total (total : Nat) (ht : 0 < total) : pct total total = 100 := by
  have ht' : ((total : ℚ)) ≠ 0 := by
    exact_mod_cast Nat.pos_iff_ne_zero.mp ht
  simp [pct, ht, div_self ht']

/-- With an unknown total the percent is pinned at 0. -/
lemma pct_zero_total (d : Nat) : pct 0 d = 0 := by
  simp [pct]

/-- The progress emissions of the download loop are exactly one record per
chunk: percent `pct total d`, total `some total`, and byte counter `d` for
each running total `d`. -/
lemma downloadLoop_progress_eq (total : Nat) (chunks : List (List Nat)) (acc : Nat)
    (hne : ∀ c ∈ chunks, c ≠ []) :
    (downloadLoop total chunks acc).1 =
      (runningTotals acc (chunks.map (fun c => c.length))).map
        (fun d => { current := pct total d
                    total_bytes := some total
                    processed_bytes := d
                    message := none }) := by
  induction chunks generalizing acc with
  | nil => rfl
  | cons c rest ih =>
    have hc : ¬ c.length = 0 := by
      simpa [List.length_eq_zero] using hne c (by simp)
    have ih' := ih (acc + c.length) (fun d hd => hne d (by simp [hd]))
    simp [downloadLoop, hc, runningTotals, progress_build_eq, pct, ih']

/-- On a success status, the progress list produced by `download_impl` is
the loop's progress list for the parsed total. -/
lemma download_impl_progress (r : HttpRespM) (fs : FsM) (url destination : String)
    (hs : r.success = true) :
    (download_impl (.ok r) fs url destination).2.2 =
      (downloadLoop ((r.contentLength.bind parse_u64).getD 0) r.chunks 0).1 := by
  simp [download_impl, hs]

/-- C8: in a single successful download with a correctly declared positive
total size, the emitted percents are non-decreasing and the final emission
is exactly 100. -/
theorem download_progress_monotone (r : HttpRespM) (fs : FsM) (url destination : String)
    (T : Nat)
    (hs : r.success = true)
    (hne : ∀ c ∈ r.chunks, c ≠ [])
    (hT : (r.contentLength.bind parse_u64).getD 0 = T)
    (hTpos : 0 < T)
    (hsum : (r.chunks.map (fun c => c.length)).sum = T) :
    List.Chain' (· ≤ ·)
      (((download_impl (.ok r) fs url destination).2.2).map (fun p => p.current)) ∧
    ((((download_impl (.ok r) fs url destination).2.2).map (fun p => p.current)).getLast?
      = some 100) := by
  rw [download_impl_progress r fs url destination hs, hT,
    downloadLoop_progress_eq T r.chunks 0 hne, List.map_map]
  have hchainNat : List.Chain' (· ≤ ·)
      (runningTotals 0 (r.chunks.map (fun c => c.length))) :=
    (List.chain'_cons'.mp (runningTotals_chain_le 0 _)).2
  constructor
  · exact List.chain'_map_of_chain' _ (fun a b hab => pct_mono hTpos hab) hchainNat
  · cases hch : r.chunks with
    | nil =>
      exfalso
      rw [hch] at hsum
      simp at hsum
      omega
    | cons c rest =>
      rw [List.getLast?_map, List.map_cons, runningTotals_getLast_cons]
      have hsum' : 0 + c.length + (rest.map (fun c => c.length)).sum = T := by
        rw [hch] at hsum
        simpa using hsum
      rw [Option.map_some', hsum']
      simp [pct_total T hTpos]

/-- C9: every progress value emitted by a successful download carries
`total_bytes = some n` (never `none`), where `n` is the parsed
`content-length` value, defaulting to `0` when the header is missing or
unparseable; and when `n = 0` every emission's percent is `0` while the
byte counter runs through the strictly increasing running totals of the
chunk sizes. -/
theorem download_progress_total_bytes (r : HttpRespM) (fs : FsM) (url destination : String)
    (T : Nat)
    (hs : r.success = true)
    (hne : ∀ c ∈ r.chunks, c ≠ [])
    (hT : (r.contentLength.bind parse_u64).getD 0 = T) :
    (∀ p ∈ (download_impl (.ok r) fs url destination).2.2, p.total_bytes = some T) ∧
    (r.contentLength = none → T = 0) ∧
    (∀ s, r.contentLength = some s → parse_u64 s = none → T = 0) ∧
    (∀ s n, r.contentLength = some s → parse_u64 s = some n → T = n) ∧
    (T = 0 →
      (∀ p ∈ (download_impl (.ok r) fs url destination).2.2, p.current = 0) ∧
      ((download_impl (.ok r) fs url destination).2.2).map (fun p => p.processed_bytes) =
        runningTotals 0 (r.chunks.map (fun c => c.length)) ∧
      List.Chain' (· < ·)
        (((download_impl (.ok r) fs url destination).2.2).map
          (fun p => p.processed_bytes))) := by
  rw [download_impl_progress r fs url destination hs, hT,
    downloadLoop_progress_eq T r.chunks 0 hne]
  refine ⟨?_, ?_, ?_, ?_, ?_⟩
  · intro p hp
    rcases List.mem_map.mp hp with ⟨d, _, rfl⟩
    rfl
  · intro hnone
    rw [hnone] at hT
    simpa using hT.symm
  · intro s hsome hparse
    rw [hsome] at hT
    simp [hparse] at hT
    omega
  · intro s n hsome hparse
    rw [hsome] at hT
    simp [hparse] at hT
    omega
  · intro hT0
    refine ⟨?_, ?_, ?_⟩
    · intro p hp
      rcases List.mem_map.mp hp with ⟨d, _, rfl⟩
      simpa [hT0] using pct_zero_total d
    · rw [List.map_map]
      exact List.map_id' _ |>.symm ▸ rfl
    · rw [List.map_map]
      have hpos : ∀ n ∈ r.chunks.map (fun c => c.length), 0 < n := by
        intro n hn
        rcases List.mem_map.mp hn with ⟨c, hc, rfl⟩
        exact List.length_pos.mpr (hne c hc)
      have hchainNat : List.Chain' (· < ·)
          (runningTotals 0 (r.chunks.map (fun c => c.length))) :=
        (List.chain'_cons'.mp (runningTotals_chain_lt 0 _ hpos)).2
      exact List.chain'_map_of_chain' _ (fun a b hab => hab) hchainNat

/-- C2: once the download has succeeded and written `bytes` to the
destination, verification succeeds exactly when the supplied checksum
equals the file's true hex digest case-insensitively; otherwise it fails
with a `ChecksumMismatch` whose `actual` field is the true digest and whose
`expected` field is the supplied checksum. -/
theorem download_with_verification_checksum (g : List Nat → List Nat)
    (resp : Except String HttpRespM) (fs fs2 : FsM)
    (url destination expected : String) (ps : List Progress) (bytes : List Nat)
    (hdl : download_impl resp fs url destination = (.ok (), fs2, ps))
    (hfile : fs2 destination = some bytes) :
    (to_lowercase expected = to_lowercase (hexEncode (g bytes)) →
      (download_with_verification g resp fs url destination expected).1 = .ok ()) ∧
    (to_lowercase expected ≠ to_lowercase (hexEncode (g bytes)) →
      (download_with_verification g resp fs url destination expected).1 =
        .error (.checksumMismatch destination expected (hexEncode (g bytes)))) := by
  constructor
  · intro h
    simp [download_with_verification, hdl, verify_sha256, calculate_sha256, hfile, h]
  · intro h
    have h' : ¬ (to_lowercase (hexEncode (g bytes)) = to_lowercase expected) :=
      fun hc => h hc.symm
    simp [download_with_verification, hdl, verify_sha256, calculate_sha256, hfile, h']

/-- A one-chunk response: status 200, content length 1, body byte `0xAA`. -/
def respAA : HttpRespM := ⟨true, "200 OK", some "1", [[170]]⟩

/-- The filesystem after downloading `respAA` to `"/d"`. -/
def fsAA : FsM := fsUpdate emptyFs "/d" [170]

/-- Concrete evaluation of `download_impl` on `respAA`: one emission at
percent 100, one byte on disk. -/
lemma download_impl_respAA :
    download_impl (.ok respAA) emptyFs "u" "/d" =
      (.ok (), fsAA, [⟨100, some 1, 1, none⟩]) := by
  show (Except.ok (), fsUpdate emptyFs "/d" ([170] ++ []),
    [((Progress.new (if 0 < 1 then ((1 : ℚ) / (1 : ℚ)) * 100 else 0)).with_total_bytes
      1).with_processed_bytes 1]) = _
  refine Prod.ext rfl (Prod.ext rfl ?_)
  have h100 : ((1 : ℚ) / (1 : ℚ)) * 100 = 100 := by norm_num
  simp [progress_build_eq, h100]

/-- Witness for C2: a one-chunk download of the byte `0xAA` whose true
digest (under the identity digest function) is `"aa"`, verified against the
uppercase form `"AA"`. -/
theorem download_with_verification_checksum_witness :
    download_impl (.ok respAA) emptyFs "u" "/d" =
      (.ok (), fsAA, [⟨100, some 1, 1, none⟩]) ∧
    fsAA "/d" = some [170] ∧
    to_lowercase "AA" = to_lowercase (hexEncode (id [170])) ∧
    (download_with_verification id (.ok respAA)
      emptyFs "u" "/d" "AA").1 = .ok () :=
  ⟨download_impl_respAA, by decide, by decide,
    (download_with_verification_checksum id (.ok respAA) emptyFs fsAA
      "u" "/d" "AA" [⟨100, some 1, 1, none⟩] [170]
      download_impl_respAA (by decide)).1 (by decide)⟩

/-- C7: when verification fails, the whole call returns the
`ChecksumMismatch` error carrying both digests, and the filesystem it
leaves behind is exactly the post-download one — the fully downloaded file
is still on disk, unchanged. -/
theorem download_with_verification_mismatch_frame (g : List Nat → List Nat)
    (resp : Except String HttpRespM) (fs fs2 : FsM)
    (url destination expected : String) (ps : List Progress) (bytes : List Nat)
    (hdl : download_impl resp fs url destination = (.ok (), fs2, ps))
    (hfile : fs2 destination = some bytes)
    (hmm : to_lowercase (hexEncode (g bytes)) ≠ to_lowercase expected) :
    download_with_verification g resp fs url destination expected =
      (.error (.checksumMismatch destination expected (hexEncode (g bytes))), fs2) ∧
    fs2 destination = some bytes := by
  refine ⟨?_, hfile⟩
  simp [download_with_verification, hdl, verify_sha256, calculate_sha256, hfile, hmm]

/-- Witness for C7: verifying the downloaded byte `0xAA` against the wrong
digest `"bb"` returns the mismatch error with both digests and leaves the
post-download filesystem untouched. -/
theorem download_with_verification_mismatch_frame_witness :
    download_impl (.ok respAA) emptyFs "u" "/d" =
      (.ok (), fsAA, [⟨100, some 1, 1, none⟩]) ∧
    fsAA "/d" = some [170] ∧
    to_lowercase (hexEncode (id [170])) ≠ to_lowercase "bb" ∧
    (download_with_verification id (.ok respAA) emptyFs "u" "/d" "bb" =
      (.error (.checksumMismatch "/d" "bb" (hexEncode (id [170]))), fsAA) ∧
     fsAA "/d" = some [170]) :=
  ⟨download_impl_respAA, by decide, by decide,
    download_with_verification_mismatch_frame id (.ok respAA) emptyFs fsAA
      "u" "/d" "bb" [⟨100, some 1, 1, none⟩] [170]
      download_impl_respAA (by decide) (by decide)⟩

/-- A two-chunk response with a correctly declared total of 4 bytes. -/
def respFour : HttpRespM := ⟨true, "200 OK", some "4", [[170], [187, 204, 221]]⟩

/-- A two-chunk response with no `content-length` header. -/
def respNoLen : HttpRespM := ⟨true, "200 OK", none, [[170], [187, 204]]⟩

/-- Witness for C8: on the 4-byte two-chunk response the percents are
non-decreasing and end at exactly 100. -/
theorem download_progress_monotone_witness :
    respFour.success = true ∧
    (∀ c ∈ respFour.chunks, c ≠ []) ∧
    (respFour.contentLength.bind parse_u64).getD 0 = 4 ∧
    (0 : Nat) < 4 ∧
    (respFour.chunks.map (fun c => c.length)).sum = 4 ∧
    (List.Chain' (· ≤ ·)
      (((download_impl (.ok respFour) emptyFs "u" "/d").2.2).map (fun p => p.current)) ∧
     ((((download_impl (.ok respFour) emptyFs "u" "/d").2.2).map
        (fun p => p.current)).getLast? = some 100)) :=
  ⟨rfl, by decide, by decide, by decide, by decide,
    download_progress_monotone respFour emptyFs "u" "/d" 4
      rfl (by decide) (by decide) (by decide) (by decide)⟩

/-- Witness for C9: on the header-less response every emission carries
`total_bytes = some 0`, every percent is 0 and the byte counters strictly
climb through the running totals. -/
theorem download_progress_total_bytes_witness :
    respNoLen.success = true ∧
    (∀ c ∈ respNoLen.chunks, c ≠ []) ∧
    (respNoLen.contentLength.bind parse_u64).getD 0 = 0 ∧
    ((∀ p ∈ (download_impl (.ok respNoLen) emptyFs "u" "/d").2.2,
        p.total_bytes = some 0) ∧
     (respNoLen.contentLength = none → (0 : Nat) = 0) ∧
     (∀ s, respNoLen.contentLength = some s → parse_u64 s = none → (0 : Nat) = 0) ∧
     (∀ s n, respNoLen.contentLength = some s → parse_u64 s = some n → 0 = n) ∧
     ((0 : Nat) = 0 →
       (∀ p ∈ (download_impl (.ok respNoLen) emptyFs "u" "/d").2.2, p.current = 0) ∧
       ((download_impl (.ok respNoLen) emptyFs "u" "/d").2.2).map
           (fun p => p.processed_bytes) =
         runningTotals 0 (respNoLen.chunks.map (fun c => c.length)) ∧
       List.Chain' (· < ·)
         (((download_impl (.ok respNoLen) emptyFs "u" "/d").2.2).map
           (fun p => p.processed_bytes)))) :=
  ⟨rfl, by decide, by decide,
    download_progress_total_bytes respNoLen emptyFs "u" "/d" 0
      rfl (by decide) (by decide)⟩

/-- Steps that are skipped or succeed advance the cursor without any other
effect on the run. -/
lemma runAux_append {ε : Type} (all : List (StepM ε)) (pre tl : List (StepM ε)) (c : Nat)
    (hpre : ∀ t ∈ pre, t.canExecute = false ∨ t.executeResult = .ok ()) :
    runAux all (pre ++ tl) c = runAux all tl (c + pre.length) := by
  induction pre generalizing c with
  | nil => simp
  | cons t rest ih =>
    have ih' := ih (c + 1) (fun u hu => hpre u (by simp [hu]))
    have harith : c + 1 + rest.length = c + (rest.length + 1) := by omega
    rcases hpre t (by simp) with h | h
    · rw [List.cons_append]
      show (if t.canExecute then _ else runAux all (rest ++ tl) (c + 1)) = _
      rw [h]
      simpa [harith] using ih'
    · by_cases hc : t.canExecute
      · rw [List.cons_append]
        show (if t.canExecute then _ else _) = _
        rw [if_pos hc, h]
        simpa [harith] using ih'
      · rw [List.cons_append]
        show (if t.canExecute then _ else runAux all (rest ++ tl) (c + 1)) = _
        rw [if_neg hc]
        simpa [harith] using ih'

/-- A step that gates true and fails stops the run with the rollback sweep
over all indices below the cursor, in descending order. -/
lemma runAux_fail {ε : Type} (all : List (StepM ε)) (s : StepM ε) (tl : List (StepM ε))
    (c : Nat) (e : ε)
    (hcan : s.canExecute = true) (hexec : s.executeResult = .error e) :
    runAux all (s :: tl) c =
      (.failed e (rollbackFailures all (List.range c).reverse), (List.range c).reverse) := by
  simp [runAux, hcan, hexec]

/-- C1: if every step before position `k = pre.length` is skipped or
succeeds and the step at position `k` gates true and fails with `e`, the
pipeline stops there, invokes rollback on exactly the indices `< k` in
strictly descending order, collects the rollback failures of those earlier
steps, and ends `Failed` carrying the original error `e`. -/
theorem pipeline_failure_rollback {ε : Type} (pre : List (StepM ε)) (s : StepM ε)
    (rest : List (StepM ε)) (e : ε)
    (hpre : ∀ t ∈ pre, t.canExecute = false ∨ t.executeResult = .ok ())
    (hcan : s.canExecute = true) (hexec : s.executeResult = .error e) :
    runPipeline (pre ++ s :: rest) =
      (.failed e (((List.range pre.length).reverse).filterMap
          (fun i => (pre.get? i).bind (fun t => errOf t.rollbackResult))),
        (List.range pre.length).reverse) ∧
    (∀ i, i ∈ (List.range pre.length).reverse ↔ i < pre.length) ∧
    List.Pairwise (· > ·) ((List.range pre.length).reverse) := by
  refine ⟨?_, ?_, ?_⟩
  · rw [runPipeline, runAux_append (pre ++ s :: rest) pre (s :: rest) 0 hpre,
      Nat.zero_add, runAux_fail (pre ++ s :: rest) s rest pre.length e hcan hexec]
    have hsame : rollbackFailures (pre ++ s :: rest) (List.range pre.length).reverse =
        ((List.range pre.length).reverse).filterMap
          (fun i => (pre.get? i).bind (fun t => errOf t.rollbackResult)) := by
      unfold rollbackFailures
      apply List.filterMap_congr
      intro i hi
      have hilt : i < pre.length := by
        simpa [List.mem_reverse, List.mem_range] using hi
      rw [List.get?_append hilt]
    rw [hsame]
  · intro i
    simp [List.mem_reverse, List.mem_range]
  · rw [List.pairwise_reverse]
    exact List.pairwise_lt_range _

/-- Witness for C1: a three-step pipeline whose first step succeeds (with a
failing rollback), whose second step is skipped, and whose third step fails
with `"boom"`: rollback runs on indices 1 then 0 and the run ends `Failed`
with `"boom"` and the collected rollback failure `"r0"`. -/
theorem pipeline_failure_rollback_witness :
    (∀ t ∈ ([⟨true, .ok (), .error "r0"⟩, ⟨false, .error "ignored", .ok ()⟩] :
        List (StepM String)),
      t.canExecute = false ∨ t.executeResult = .ok ()) ∧
    (⟨true, .error "boom", .ok ()⟩ : StepM String).canExecute = true ∧
    (⟨true, .error "boom", .ok ()⟩ : StepM String).executeResult = .error "boom" ∧
    (runPipeline (([⟨true, .ok (), .error "r0"⟩, ⟨false, .error "ignored", .ok ()⟩] :
        List (StepM String)) ++ ⟨true, .error "boom", .ok ()⟩ ::
          [⟨true, .ok (), .ok ()⟩]) =
      (.failed "boom"
        (((List.range ([⟨true, .ok (), .error "r0"⟩,
            ⟨false, .error "ignored", .ok ()⟩] : List (StepM String)).length).reverse).filterMap
          (fun i => ((([⟨true, .ok (), .error "r0"⟩,
            ⟨false, .error "ignored", .ok ()⟩] : List (StepM String)).get? i).bind
              (fun t => errOf t.rollbackResult)))),
        (List.range ([⟨true, .ok (), .error "r0"⟩,
          ⟨false, .error "ignored", .ok ()⟩] : List (StepM String)).length).reverse) ∧
     (∀ i, i ∈ (List.range ([⟨true, .ok (), .error "r0"⟩,
        ⟨false, .error "ignored", .ok ()⟩] : List (StepM String)).length).reverse ↔
          i < ([⟨true, .ok (), .error "r0"⟩,
            ⟨false, .error "ignored", .ok ()⟩] : List (StepM String)).length) ∧
     List.Pairwise (· > ·) ((List.range ([⟨true, .ok (), .error "r0"⟩,
        ⟨false, .error "ignored", .ok ()⟩] : List (StepM String)).length).reverse)) :=
  ⟨by decide, rfl, rfl,
    pipeline_failure_rollback
      [⟨true, .ok (), .error "r0"⟩, ⟨false, .error "ignored", .ok ()⟩]
      ⟨true, .error "boom", .ok ()⟩ [⟨true, .ok (), .ok ()⟩] "boom"
      (by decide) rfl rfl⟩

end Pulsar
